import Mathlib

/-!
Verification of the Game-of-Life engine: a shallow embedding of the grid
model (`model` package) and rule engine (`rules` package) in Lean 4, with
theorems checking the natural-language specification against the code.

Conventions of the embedding:
* Go `int` is modelled as `Int`; slice lengths are `Nat` and are compared to
  `Int` values through casts, mirroring the source's bounds checks.
* The `[][]bool` cell matrix is a `List (List Bool)`; `matGet`/`setMat`
  mirror Go's index read/write (writes outside the backing store are
  modelled as no-ops, and all verified code paths are shown to stay
  in range).
* Methods that mutate the receiver become functions `Grid → ... → Grid`;
  generation steps return the pair (receiver after the call, returned
  destination grid) so that effects on the source grid stay visible.
* Randomness (`math/rand`) is modelled as an explicit oracle argument: a
  list of drawn coordinates for `InjectRandomLife`, a per-cell decision
  function for `Randomize`.
* The MD5 digest in `GetGridHash` is modelled as the exact row-major byte
  stream the code feeds to the hash (one entry per cell, alive ↦ true);
  the program only ever compares digests for equality.
-/

/-- The integer interval `[lo, hi]` as a list, empty when `hi < lo`.
Models Go loops `for n := lo; n <= hi; n++`. -/
def intRange (lo hi : Int) : List Int :=
  (List.range (hi + 1 - lo).toNat).map (fun (i : Nat) => lo + (i : Int))

/-- Read `m[y][x]` as the Go code does with `g.cells[ny][nx]`; out-of-store
reads yield `false` (the verified call sites are proved in range). -/
def matGet (m : List (List Bool)) (x y : Int) : Bool :=
  if x < 0 ∨ y < 0 then false
  else (m.getD y.toNat []).getD x.toNat false

/-- Write `m[y][x] = b`; out-of-store writes are no-ops (the verified call
sites are proved in range). -/
def setMat (m : List (List Bool)) (x y : Int) (b : Bool) : List (List Bool) :=
  if x < 0 ∨ y < 0 then m
  else m.set y.toNat ((m.getD y.toNat []).set x.toNat b)

/-- An all-dead `height × width` cell matrix, as allocated by `make`. -/
def mkCells (width height : Int) : List (List Bool) :=
  List.replicate height.toNat (List.replicate width.toNat false)

/-- A backing matrix of exactly `height` rows of length `width`. -/
def matShape (m : List (List Bool)) (width height : Int) : Prop :=
  m.length = height.toNat ∧ ∀ row ∈ m, row.length = width.toNat

/-- The `activeBounds` record embedded in `Grid`. -/
structure ActiveBounds where
  minX : Int
  maxX : Int
  minY : Int
  maxY : Int
  valid : Bool
deriving DecidableEq

/-- `Grid` from the `model` package: dimensions, cell matrix, hash history
for cycle detection, and the cached bounding box of living cells. -/
structure Grid where
  width : Int
  height : Int
  cells : List (List Bool)
  history : List (List Bool)
  activeBounds : ActiveBounds
deriving DecidableEq

/-- `rules.ApplyConwayRules`: `(alive && neighbors == 2) || neighbors == 3`. -/
def ApplyConwayRules (neighbors : Int) (alive : Bool) : Bool :=
  (alive && neighbors == 2) || neighbors == 3

/-- `NewGrid`: fresh all-dead grid; the remaining fields are Go zero values. -/
def NewGrid (width height : Int) : Grid :=
  { width := width, height := height, cells := mkCells width height,
    history := [], activeBounds := ⟨0, 0, 0, 0, false⟩ }

/-- `Grid.Reset`: rewrites the dimensions, drops history, marks the bounds
cache invalid, and resizes/clears the cell matrix in place (rows are
reallocated only when their length does not match the new width). -/
def Grid.Reset (g : Grid) (width height : Int) : Grid :=
  let cells0 := if (g.cells.length : Int) = height then g.cells
                else List.replicate height.toNat ([] : List Bool)
  let cells1 := cells0.map (fun row =>
    if (row.length : Int) = width then row.map (fun _ => false)
    else List.replicate width.toNat false)
  { width := width, height := height, cells := cells1, history := [],
    activeBounds := { g.activeBounds with valid := false } }

/-- All in-range coordinates `(x, y)` of the grid in row-major order;
models the ubiquitous `for y := range g.height { for x := range g.width }`. -/
def gridPairs (g : Grid) : List (Int × Int) :=
  (intRange 0 (g.height - 1)).flatMap (fun y =>
    (intRange 0 (g.width - 1)).map (fun x => ((x, y) : Int × Int)))

/-- `Grid.Clear`: writes `false` into every in-range cell, drops history,
marks the bounds cache invalid. -/
def Grid.Clear (g : Grid) : Grid :=
  { g with cells := (gridPairs g).foldl (fun m p => setMat m p.1 p.2 false) g.cells,
           history := [],
           activeBounds := { g.activeBounds with valid := false } }

/-- `Grid.Set`: bounds-checked cell write; out-of-range writes are no-ops. -/
def Grid.Set (g : Grid) (x y : Int) (alive : Bool) : Grid :=
  if 0 ≤ x ∧ x < g.width ∧ 0 ≤ y ∧ y < g.height then
    { g with cells := setMat g.cells x y alive }
  else g

/-- `Grid.Get`: bounds-checked cell read; out-of-range reads return dead. -/
def Grid.Get (g : Grid) (x y : Int) : Bool :=
  if x < 0 ∨ g.width ≤ x ∨ y < 0 ∨ g.height ≤ y then false
  else matGet g.cells x y

/-- The clamped scan window of `CountNeighborsOptimized`: coordinates
`(nx, ny)` with `max 0 (x-1) ≤ nx ≤ min (width-1) (x+1)` and the analogous
bounds for `ny`, in the loop's iteration order. -/
def Grid.neighborWindow (g : Grid) (x y : Int) : List (Int × Int) :=
  (intRange (max 0 (y - 1)) (min (g.height - 1) (y + 1))).flatMap (fun ny =>
    (intRange (max 0 (x - 1)) (min (g.width - 1) (x + 1))).map (fun nx =>
      ((nx, ny) : Int × Int)))

/-- `Grid.CountNeighborsOptimized`: counts living cells in the clamped
window, skipping the centre cell `(x, y)` itself. -/
def Grid.CountNeighborsOptimized (g : Grid) (x y : Int) : Int :=
  (((g.neighborWindow x y).countP (fun p =>
    !(p.1 == x && p.2 == y) && matGet g.cells p.1 p.2) : Nat) : Int)

/-- The loop body of `calculateActiveBounds`: at a living cell the box is
initialised (first hit) or widened, at a dead cell it is left alone. -/
def calcBoundsStep (g : Grid) (b : ActiveBounds) (p : Int × Int) : ActiveBounds :=
  if matGet g.cells p.1 p.2 then
    if !b.valid then ⟨p.1, p.1, p.2, p.2, true⟩
    else ⟨min b.minX p.1, max b.maxX p.1, min b.minY p.2, max b.maxY p.2, true⟩
  else b

/-- `Grid.calculateActiveBounds`: resets `valid` and folds over all cells in
row-major order, widening the box at each living cell (the first living cell
initialises the box and sets `valid`). -/
def Grid.calculateActiveBounds (g : Grid) : Grid :=
  let b0 : ActiveBounds := { g.activeBounds with valid := false }
  { g with activeBounds := (gridPairs g).foldl (calcBoundsStep g) b0 }

/-- `Grid.GetBoundingBoxSize`: recomputes the bounds when stale, returns 0
when still invalid, else the box area. The receiver's state after the call
is returned as the second component. -/
def Grid.GetBoundingBoxSize (g : Grid) : Int × Grid :=
  let g1 := if !g.activeBounds.valid then g.calculateActiveBounds else g
  if !g1.activeBounds.valid then (0, g1)
  else ((g1.activeBounds.maxX - g1.activeBounds.minX + 1) *
        (g1.activeBounds.maxY - g1.activeBounds.minY + 1), g1)

/-- The generation-step loop body shared by both strategies:
`rules.ApplyConwayRules(g.CountNeighborsOptimized(x, y), g.cells[y][x])`. -/
def Grid.liveNext (g : Grid) (p : Int × Int) : Bool :=
  ApplyConwayRules (g.CountNeighborsOptimized p.1 p.2) (matGet g.cells p.1 p.2)

/-- The write loop of both generation strategies over a coordinate list:
`if rules.ApplyConwayRules(...) { next.cells[y][x] = true }`. -/
def stepCells (g : Grid) (m : List (List Bool)) (ps : List (Int × Int)) :
    List (List Bool) :=
  ps.foldl (fun m p => if g.liveNext p then setMat m p.1 p.2 true else m) m

/-- `rowsPerWorker`: ceiling division `(height + numWorkers - 1) / numWorkers`.
Under the well-formedness hypotheses both operands are nonnegative, where
Go's truncated division and Lean's euclidean division agree. -/
def rowsPerWorker (height : Int) (numWorkers : Nat) : Int :=
  (height + (numWorkers : Int) - 1) / (numWorkers : Int)

/-- The rows processed by the worker loop of `NextGenerationParallel`:
worker `i` covers `[i*rowsPerWorker, min((i+1)*rowsPerWorker, height))`.
The source breaks out of the loop at the first worker with
`startRow >= height`; as `startRow` is nondecreasing in `i`, dropping each
such band individually is equivalent to the break. -/
def bandRows (height : Int) (numWorkers : Nat) : List Int :=
  (List.range numWorkers).flatMap (fun i =>
    let startRow := (i : Int) * rowsPerWorker height numWorkers
    let endRow := min (startRow + rowsPerWorker height numWorkers) height
    if height ≤ startRow then [] else intRange startRow (endRow - 1))

/-- `GridPool.Get`: the buffer handed out by `sync.Pool` (arbitrary prior
state, or a zero `Grid` when the pool allocates afresh) with
`Reset(width, height)` applied. -/
def GridPool.Get (buf : Grid) (width height : Int) : Grid :=
  buf.Reset width height

/-- `Grid.NextGenerationParallel`: full scan over all rows, partitioned into
per-worker bands. The band partition is kept explicit; the concurrent
execution is modelled sequentially, which is faithful because each task
writes only its own rows of the destination and reads only the source.
`pool = none` models a nil pool (direct allocation); `some buf` models a
pool yielding buffer `buf`. Returns (source after the call, destination). -/
def Grid.NextGenerationParallel (g : Grid) (numWorkers : Nat)
    (pool : Option Grid) : Grid × Grid :=
  let next := match pool with
    | some buf => GridPool.Get buf g.width g.height
    | none => NewGrid g.width g.height
  let ps := (bandRows g.height numWorkers).flatMap (fun y =>
    (intRange 0 (g.width - 1)).map (fun x => ((x, y) : Int × Int)))
  (g, { next with cells := stepCells g next.cells ps })

/-- `Grid.NextGenerationBounded`: recomputes the source bounds when stale;
with no living cells returns the fresh all-dead destination; otherwise scans
the bounding box expanded by a 1-cell margin (clamped to the grid) and
eagerly recomputes the destination's bounds. Returns (source after the
call, destination). `g1` differs from `g` only in `activeBounds`, so using
it for the scan reads the same cells and dimensions as the source does. -/
def Grid.NextGenerationBounded (g : Grid) (pool : Option Grid) : Grid × Grid :=
  let g1 := if !g.activeBounds.valid then g.calculateActiveBounds else g
  let next := match pool with
    | some buf => GridPool.Get buf g1.width g1.height
    | none => NewGrid g1.width g1.height
  if !g1.activeBounds.valid then (g1, next)
  else
    let minX := max 0 (g1.activeBounds.minX - 1)
    let maxX := min (g1.width - 1) (g1.activeBounds.maxX + 1)
    let minY := max 0 (g1.activeBounds.minY - 1)
    let maxY := min (g1.height - 1) (g1.activeBounds.maxY + 1)
    let ps := (intRange minY maxY).flatMap (fun y =>
      (intRange minX maxX).map (fun x => ((x, y) : Int × Int)))
    (g1, ({ next with cells := stepCells g1 next.cells ps }).calculateActiveBounds)

/-- `Grid.CountLivingCells`: total number of living cells. -/
def Grid.CountLivingCells (g : Grid) : Int :=
  (((gridPairs g).countP (fun p => matGet g.cells p.1 p.2) : Nat) : Int)

/-- `Grid.GetGridHash`: the MD5 digest of the row-major byte stream (one
byte per cell, 1 alive / 0 dead). The digest is modelled as that byte
stream itself; the program only compares digests for equality. -/
def Grid.GetGridHash (g : Grid) : List Bool :=
  (gridPairs g).map (fun p => matGet g.cells p.1 p.2)

/-- `Grid.UpdateHistory`: appends the current hash, then drops the oldest
entry when the history exceeds 5 entries. -/
def Grid.UpdateHistory (g : Grid) : Grid :=
  let h1 := g.history ++ [g.GetGridHash]
  { g with history := if 5 < h1.length then h1.drop 1 else h1 }

/-- `Grid.IsStagnant`: false with fewer than 3 history entries, else true
iff the current hash equals one of the last three recorded hashes. -/
def Grid.IsStagnant (g : Grid) : Bool :=
  if g.history.length < 3 then false
  else
    let currentHash := g.GetGridHash
    let n := g.history.length
    ((decide (0 < n)) && (g.history.getD (n - 1) [] == currentHash))
    || ((decide (2 ≤ n)) && (g.history.getD (n - 2) [] == currentHash))
    || ((decide (3 ≤ n)) && (g.history.getD (n - 3) [] == currentHash))

/-- `Grid.InjectRandomLife`: sets each drawn coordinate alive, then marks
the bounds cache invalid. The `count` random draws of the source are
modelled as the explicit list `coords`. -/
def Grid.InjectRandomLife (g : Grid) (coords : List (Int × Int)) : Grid :=
  let g1 := coords.foldl (fun acc c => acc.Set c.1 c.2 true) g
  { g1 with activeBounds := { g1.activeBounds with valid := false } }

/-- `Grid.Randomize`: writes every in-range cell through `Set`, with the
per-cell random draw `rand.Float64() < density` modelled as the oracle
`draw`. -/
def Grid.Randomize (g : Grid) (draw : Int → Int → Bool) : Grid :=
  (gridPairs g).foldl (fun acc p => acc.Set p.1 p.2 (draw p.1 p.2)) g

/-- The 3×3 glider pattern literal from `AddGlider`. -/
def gliderPattern : List (List Bool) :=
  [[false, true, false], [false, false, true], [true, true, true]]

/-- `Grid.AddGlider`: writes the 3×3 pattern (dead cells included) through
`Set` at the given offset. -/
def Grid.AddGlider (g : Grid) (startX startY : Int) : Grid :=
  gliderPattern.enum.foldl (fun acc row =>
    row.2.enum.foldl (fun acc cell =>
      acc.Set (startX + (cell.1 : Int)) (startY + (row.1 : Int)) cell.2) acc) g

/-- `Grid.AddOscillator`: a 3-cell horizontal blinker through `Set`. -/
def Grid.AddOscillator (g : Grid) (startX startY : Int) : Grid :=
  ((g.Set startX startY true).Set (startX + 1) startY true).Set
    (startX + 2) startY true

/-- Well-formedness: nonnegative dimensions and a backing matrix of exactly
`height` rows of length `width`, as established by `NewGrid` and `Reset`
and preserved by every operation. -/
def WF (g : Grid) : Prop :=
  0 ≤ g.width ∧ 0 ≤ g.height ∧ matShape g.cells g.width g.height

/-- The bounding-box accuracy precondition of the equivalence claim:
`valid = true` together with the tight box of the living cells (every
living cell inside the box and each of the four edges attained), or
`valid = false` with no living cells. -/
def boundsAccurate (g : Grid) : Bool :=
  if g.activeBounds.valid then
    ((gridPairs g).all (fun p => !matGet g.cells p.1 p.2 ||
        (decide (g.activeBounds.minX ≤ p.1) && decide (p.1 ≤ g.activeBounds.maxX) &&
         decide (g.activeBounds.minY ≤ p.2) && decide (p.2 ≤ g.activeBounds.maxY))))
    && ((gridPairs g).any (fun p => matGet g.cells p.1 p.2 && p.1 == g.activeBounds.minX))
    && ((gridPairs g).any (fun p => matGet g.cells p.1 p.2 && p.1 == g.activeBounds.maxX))
    && ((gridPairs g).any (fun p => matGet g.cells p.1 p.2 && p.2 == g.activeBounds.minY))
    && ((gridPairs g).any (fun p => matGet g.cells p.1 p.2 && p.2 == g.activeBounds.maxY))
  else (gridPairs g).all (fun p => !matGet g.cells p.1 p.2)

/-- The Moore neighbourhood offsets of the specification. -/
def mooreOffsets : List (Int × Int) :=
  [(-1, -1), (0, -1), (1, -1), (-1, 0), (1, 0), (-1, 1), (0, 1), (1, 1)]

/-- Specification-side neighbour count: the number of living cells among
the up-to-8 Moore neighbours that lie inside the grid (via the
bounds-checked `Get`). -/
def mooreCount (g : Grid) (x y : Int) : Int :=
  ((mooreOffsets.countP (fun d => g.Get (x + d.1) (y + d.2)) : Nat) : Int)

instance (m : List (List Bool)) (w h : Int) : Decidable (matShape m w h) := by
  unfold matShape
  infer_instance

instance (g : Grid) : Decidable (WF g) := by
  unfold WF
  infer_instance

/-! ## Basic facts about `intRange` and the coordinate lists -/

theorem mem_intRange {lo hi n : Int} : n ∈ intRange lo hi ↔ lo ≤ n ∧ n ≤ hi := by
  unfold intRange
  simp only [List.mem_map, List.mem_range]
  constructor
  · rintro ⟨i, hik, rfl⟩
    omega
  · intro h
    exact ⟨(n - lo).toNat, by omega, by omega⟩

theorem nodup_intRange (lo hi : Int) : (intRange lo hi).Nodup := by
  unfold intRange
  refine List.Nodup.map ?_ (List.nodup_range _)
  intro a b hab
  simp only [add_right_inj, Nat.cast_inj] at hab
  exact hab

theorem mem_pairList {xs ys : List Int} {p : Int × Int} :
    p ∈ ys.flatMap (fun y => xs.map (fun x => ((x, y) : Int × Int))) ↔
      p.1 ∈ xs ∧ p.2 ∈ ys := by
  simp only [List.mem_flatMap, List.mem_map]
  constructor
  · rintro ⟨y, hy, x, hx, rfl⟩
    exact ⟨hx, hy⟩
  · rintro ⟨hx, hy⟩
    exact ⟨p.2, hy, p.1, hx, rfl⟩

theorem nodup_pairList {xs ys : List Int} (hx : xs.Nodup) (hy : ys.Nodup) :
    (ys.flatMap (fun y => xs.map (fun x => ((x, y) : Int × Int)))).Nodup := by
  rw [List.nodup_flatMap]
  constructor
  · intro y _
    exact hx.map (fun a b h => by simpa using congrArg Prod.fst h)
  · refine hy.imp ?_
    intro a b hab q hqa hqb
    simp only [List.mem_map] at hqa hqb
    obtain ⟨xa, _, rfl⟩ := hqa
    obtain ⟨xb, _, hq⟩ := hqb
    exact hab (by simpa using (congrArg Prod.snd hq).symm)

theorem mem_gridPairs {g : Grid} {p : Int × Int} :
    p ∈ gridPairs g ↔ 0 ≤ p.1 ∧ p.1 < g.width ∧ 0 ≤ p.2 ∧ p.2 < g.height := by
  unfold gridPairs
  rw [mem_pairList, mem_intRange, mem_intRange]
  omega

theorem nodup_gridPairs (g : Grid) : (gridPairs g).Nodup :=
  nodup_pairList (nodup_intRange _ _) (nodup_intRange _ _)

theorem mem_neighborWindow {g : Grid} {x y : Int} {p : Int × Int} :
    p ∈ g.neighborWindow x y ↔
      (max 0 (x - 1) ≤ p.1 ∧ p.1 ≤ min (g.width - 1) (x + 1)) ∧
      (max 0 (y - 1) ≤ p.2 ∧ p.2 ≤ min (g.height - 1) (y + 1)) := by
  unfold Grid.neighborWindow
  rw [mem_pairList, mem_intRange, mem_intRange]

theorem nodup_neighborWindow (g : Grid) (x y : Int) :
    (g.neighborWindow x y).Nodup :=
  nodup_pairList (nodup_intRange _ _) (nodup_intRange _ _)

theorem getD_set_ne {α : Type} (l : List α) (i j : Nat) (a d : α) (hne : i ≠ j) :
    (l.set i a).getD j d = l.getD j d := by
  by_cases hj : j < l.length
  · rw [List.getD_eq_getElem _ _ (by simpa using hj), List.getD_eq_getElem _ _ hj]
    exact List.getElem_set_ne hne _
  · rw [List.getD_eq_default _ _ (by simp; omega), List.getD_eq_default _ _ (by omega)]

theorem getD_set_self {α : Type} (l : List α) (i : Nat) (a d : α) (hi : i < l.length) :
    (l.set i a).getD i d = a := by
  rw [List.getD_eq_getElem _ _ (by simpa using hi)]
  exact List.getElem_set_self _

theorem getD_mem_of_lt {α : Type} (l : List α) (i : Nat) (d : α) (hi : i < l.length) :
    l.getD i d ∈ l := by
  rw [List.getD_eq_getElem _ _ hi]
  exact List.getElem_mem hi

theorem getD_replicate {α : Type} (n i : Nat) (a : α) :
    (List.replicate n a).getD i a = a := by
  by_cases hi : i < n
  · rw [List.getD_eq_getElem _ _ (by simpa using hi)]
    simp
  · exact List.getD_eq_default _ _ (by simpa using hi)

theorem matShape_mkCells (w h : Int) : matShape (mkCells w h) w h := by
  unfold mkCells
  constructor
  · simp
  · intro row hrow
    rw [List.eq_of_mem_replicate hrow]
    simp

theorem matGet_mkCells (w h x y : Int) : matGet (mkCells w h) x y = false := by
  unfold matGet mkCells
  by_cases hneg : x < 0 ∨ y < 0
  · rw [if_pos hneg]
  · rw [if_neg hneg]
    by_cases hy : y.toNat < h.toNat
    · rw [show (List.replicate h.toNat (List.replicate w.toNat false)).getD y.toNat []
            = List.replicate w.toNat false by
          rw [List.getD_eq_getElem _ _ (by simpa using hy)]
          simp]
      exact getD_replicate _ _ _
    · rw [show (List.replicate h.toNat (List.replicate w.toNat false)).getD y.toNat []
            = [] from List.getD_eq_default _ _ (by simp; omega)]
      rfl

theorem matGet_out_of_range {m : List (List Bool)} {w h x y : Int}
    (hs : matShape m w h) (hout : x < 0 ∨ w ≤ x ∨ y < 0 ∨ h ≤ y) :
    matGet m x y = false := by
  obtain ⟨hlen, hrows⟩ := hs
  unfold matGet
  by_cases hneg : x < 0 ∨ y < 0
  · rw [if_pos hneg]
  · rw [if_neg hneg]
    push_neg at hneg
    by_cases hyr : y.toNat < m.length
    · have hrow : (m.getD y.toNat []).length = w.toNat :=
        hrows _ (getD_mem_of_lt _ _ _ hyr)
      -- only the `w ≤ x` disjunct can hold here
      apply List.getD_eq_default
      omega
    · rw [show m.getD y.toNat [] = [] from List.getD_eq_default _ _ (by omega)]
      rfl

theorem matShape_setMat {m : List (List Bool)} {w h x y : Int} (b : Bool)
    (hs : matShape m w h) : matShape (setMat m x y b) w h := by
  unfold setMat
  split
  · exact hs
  · by_cases hyr : y.toNat < m.length
    · refine ⟨by simpa using hs.1, ?_⟩
      intro row hrow
      rcases List.mem_or_eq_of_mem_set hrow with hrow | rfl
      · exact hs.2 _ hrow
      · rw [List.length_set]
        exact hs.2 _ (getD_mem_of_lt _ _ _ hyr)
    · rw [List.set_eq_of_length_le (by omega)]
      exact hs

theorem matGet_setMat_self {m : List (List Bool)} {w h x y : Int} (b : Bool)
    (hs : matShape m w h) (hx0 : 0 ≤ x) (hxw : x < w) (hy0 : 0 ≤ y) (hyh : y < h) :
    matGet (setMat m x y b) x y = b := by
  have h1 := hs.1
  have hyr : y.toNat < m.length := by omega
  have hrow : (m.getD y.toNat []).length = w.toNat :=
    hs.2 _ (getD_mem_of_lt _ _ _ hyr)
  have hxr : x.toNat < (m.getD y.toNat []).length := by omega
  unfold setMat matGet
  rw [if_neg (by omega), if_neg (by omega)]
  rw [getD_set_self _ _ _ _ hyr, getD_set_self _ _ _ _ hxr]

theorem matGet_setMat_ne {m : List (List Bool)} {x y x' y' : Int} (b : Bool)
    (hne : ¬(x' = x ∧ y' = y)) :
    matGet (setMat m x y b) x' y' = matGet m x' y' := by
  unfold setMat
  by_cases hxy : x < 0 ∨ y < 0
  · rw [if_pos hxy]
  · rw [if_neg hxy]
    push_neg at hxy
    unfold matGet
    by_cases hxy' : x' < 0 ∨ y' < 0
    · rw [if_pos hxy', if_pos hxy']
    · rw [if_neg hxy', if_neg hxy']
      push_neg at hxy'
      by_cases hyy : y'.toNat = y.toNat
      · have hyeq : y' = y := by omega
        have hxne : x' ≠ x := fun hx => hne ⟨hx, hyeq⟩
        rw [hyy]
        by_cases hyr : y.toNat < m.length
        · rw [getD_set_self _ _ _ _ hyr]
          exact getD_set_ne _ _ _ _ _ (by omega)
        · rw [List.set_eq_of_length_le (by omega)]
      · rw [getD_set_ne _ _ _ _ _ (by omega)]

theorem matGet_natCast (m : List (List Bool)) (k n : Nat)
    (hn : n < m.length) (hk : k < (m[n]).length) :
    matGet m (k : Int) (n : Int) = (m[n])[k] := by
  unfold matGet
  rw [if_neg (by omega)]
  rw [show ((k : Int)).toNat = k by omega, show ((n : Int)).toNat = n by omega]
  rw [List.getD_eq_getElem _ _ hn]
  rw [List.getD_eq_getElem _ _ hk]

theorem matGet_ext {m1 m2 : List (List Bool)} {w h : Int}
    (h1 : matShape m1 w h) (h2 : matShape m2 w h)
    (hpt : ∀ x y : Int, 0 ≤ x → x < w → 0 ≤ y → y < h →
      matGet m1 x y = matGet m2 x y) :
    m1 = m2 := by
  obtain ⟨hl1, hr1all⟩ := h1
  obtain ⟨hl2, hr2all⟩ := h2
  apply List.ext_getElem (by omega)
  intro n hn1 hn2
  have hrow1 : (m1[n]).length = w.toNat := hr1all _ (List.getElem_mem hn1)
  have hrow2 : (m2[n]).length = w.toNat := hr2all _ (List.getElem_mem hn2)
  apply List.ext_getElem (by omega)
  intro k hk1 hk2
  have hg := hpt k n (by omega) (by omega) (by omega) (by omega)
  rwa [matGet_natCast m1 k n hn1 (by omega), matGet_natCast m2 k n hn2 (by omega)] at hg

/-! ## Bridging `Grid.Get` and the raw matrix read -/

theorem Get_eq_matGet {g : Grid} {x y : Int}
    (hx0 : 0 ≤ x) (hxw : x < g.width) (hy0 : 0 ≤ y) (hyh : y < g.height) :
    g.Get x y = matGet g.cells x y := by
  unfold Grid.Get
  rw [if_neg (by omega)]

theorem matGet_eq_Get {g : Grid} (hwf : WF g) (x y : Int) :
    matGet g.cells x y = g.Get x y := by
  by_cases hin : 0 ≤ x ∧ x < g.width ∧ 0 ≤ y ∧ y < g.height
  · exact (Get_eq_matGet hin.1 hin.2.1 hin.2.2.1 hin.2.2.2).symm
  · rw [matGet_out_of_range hwf.2.2 (by omega)]
    unfold Grid.Get
    rw [if_pos (by omega)]

/-! ## The write loop `stepCells` -/

theorem stepCells_cons (g : Grid) (m : List (List Bool)) (p : Int × Int)
    (ps : List (Int × Int)) :
    stepCells g m (p :: ps) =
      stepCells g (if g.liveNext p then setMat m p.1 p.2 true else m) ps := rfl

theorem matShape_stepCells (g : Grid) {w h : Int} {m : List (List Bool)}
    (ps : List (Int × Int)) (hs : matShape m w h) :
    matShape (stepCells g m ps) w h := by
  induction ps generalizing m with
  | nil => exact hs
  | cons p ps ih =>
    rw [stepCells_cons]
    apply ih
    split
    · exact matShape_setMat _ hs
    · exact hs

theorem matGet_stepCells (g : Grid) {w h : Int} {m : List (List Bool)}
    (ps : List (Int × Int)) (hs : matShape m w h)
    (hps : ∀ p ∈ ps, 0 ≤ p.1 ∧ p.1 < w ∧ 0 ≤ p.2 ∧ p.2 < h) (x y : Int) :
    matGet (stepCells g m ps) x y =
      (matGet m x y || (decide ((x, y) ∈ ps) && g.liveNext (x, y))) := by
  induction ps generalizing m with
  | nil => simp [stepCells]
  | cons p ps ih =>
    rw [stepCells_cons]
    have hp := hps p (List.mem_cons_self _ _)
    have hs' : matShape (if g.liveNext p then setMat m p.1 p.2 true else m) w h := by
      split
      · exact matShape_setMat _ hs
      · exact hs
    rw [ih hs' (fun q hq => hps q (List.mem_cons_of_mem _ hq))]
    by_cases hpq : (x, y) = p
    · subst hpq
      by_cases hl : g.liveNext (x, y)
      · rw [if_pos hl]
        rw [matGet_setMat_self _ hs hp.1 hp.2.1 hp.2.2.1 hp.2.2.2]
        simp [hl]
      · rw [if_neg hl]
        simp [hl]
    · have hne : ¬(x = p.1 ∧ y = p.2) := by
        intro hc
        exact hpq (Prod.ext hc.1 hc.2)
      have hstep : matGet (if g.liveNext p then setMat m p.1 p.2 true else m) x y
          = matGet m x y := by
        split
        · exact matGet_setMat_ne _ hne
        · rfl
      rw [hstep]
      have hmem : (decide ((x, y) ∈ p :: ps)) = (decide ((x, y) ∈ ps)) := by
        simp [List.mem_cons, hpq]
      rw [hmem]

/-! ## Field-preservation facts -/

theorem calculateActiveBounds_fields (g : Grid) :
    (g.calculateActiveBounds).width = g.width ∧
    (g.calculateActiveBounds).height = g.height ∧
    (g.calculateActiveBounds).cells = g.cells ∧
    (g.calculateActiveBounds).history = g.history :=
  ⟨rfl, rfl, rfl, rfl⟩

theorem Set_activeBounds (g : Grid) (x y : Int) (alive : Bool) :
    (g.Set x y alive).activeBounds = g.activeBounds := by
  unfold Grid.Set
  split
  · rfl
  · rfl

theorem foldl_activeBounds_invariant {α : Type} (step : Grid → α → Grid)
    (hstep : ∀ g a, (step g a).activeBounds = g.activeBounds)
    (g : Grid) (l : List α) :
    (l.foldl step g).activeBounds = g.activeBounds := by
  induction l generalizing g with
  | nil => rfl
  | cons a l ih => rw [List.foldl_cons, ih, hstep]

/-! ## Claim C2: the rule engine truth table -/

/-- C2: for every neighbor count in 0..8 and both values of the alive flag,
`ApplyConwayRules neighbors alive` returns true if and only if
(alive and neighbors = 2) or neighbors = 3. -/
theorem applyConwayRules_truth_table (neighbors : Int) (alive : Bool)
    (h0 : 0 ≤ neighbors) (h8 : neighbors ≤ 8) :
    (ApplyConwayRules neighbors alive = true ↔
      (alive = true ∧ neighbors = 2) ∨ neighbors = 3) := by
  unfold ApplyConwayRules
  simp [Bool.and_eq_true, Bool.or_eq_true, beq_iff_eq]

/-- Witness for C2 at neighbors = 3, alive = false. -/
theorem applyConwayRules_truth_table_witness :
    (0 : Int) ≤ 3 ∧ (3 : Int) ≤ 8 ∧
      (ApplyConwayRules 3 false = true ↔
        (false = true ∧ (3 : Int) = 2) ∨ (3 : Int) = 3) :=
  ⟨by decide, by decide, applyConwayRules_truth_table 3 false (by decide) (by decide)⟩

/-! ## Claim C4: out-of-range reads and writes -/

/-- C4: for every coordinate outside `[0,width) × [0,height)`, `Get` returns
false and `Set` with either alive value leaves the grid unchanged. -/
theorem get_set_out_of_range (g : Grid) (x y : Int)
    (h : ¬(0 ≤ x ∧ x < g.width ∧ 0 ≤ y ∧ y < g.height)) :
    g.Get x y = false ∧ ∀ alive : Bool, g.Set x y alive = g := by
  constructor
  · unfold Grid.Get
    rw [if_pos (by omega)]
  · intro alive
    unfold Grid.Set
    rw [if_neg h]

/-- Witness for C4 at (-1, 0) on a 2×2 grid. -/
theorem get_set_out_of_range_witness :
    ¬(0 ≤ (-1 : Int) ∧ (-1 : Int) < (NewGrid 2 2).width ∧ 0 ≤ (0 : Int) ∧
        (0 : Int) < (NewGrid 2 2).height) ∧
      ((NewGrid 2 2).Get (-1) 0 = false ∧
        ∀ alive : Bool, (NewGrid 2 2).Set (-1) 0 alive = NewGrid 2 2) :=
  ⟨by decide, get_set_out_of_range (NewGrid 2 2) (-1) 0 (by decide)⟩

/-! ## Claim C3: which mutations invalidate the bounding-box cache -/

/-- C3 counterexample: an in-range `Set` on a grid whose bounding-box cache
is valid leaves the cache valid, contradicting the claim that every cell
write invalidates it. -/
theorem set_keeps_bounds_valid_cx :
    ((((NewGrid 2 2).Set 0 0 true).calculateActiveBounds).Set 1 1
        true).activeBounds.valid = true := by decide

/-- C3 amended: `Reset`, `Clear` and `InjectRandomLife` leave the
bounding-box cache invalid, while `Set` — and therefore `Randomize`,
`AddGlider` and `AddOscillator`, which mutate only through `Set` — leaves
the cached bounding-box record (its `valid` flag included) unchanged. -/
theorem mutation_bounds_invalidation (g : Grid) (w h x y : Int) (alive : Bool)
    (coords : List (Int × Int)) (draw : Int → Int → Bool) (sx sy : Int) :
    (g.Reset w h).activeBounds.valid = false ∧
    g.Clear.activeBounds.valid = false ∧
    (g.InjectRandomLife coords).activeBounds.valid = false ∧
    (g.Set x y alive).activeBounds = g.activeBounds ∧
    (g.Randomize draw).activeBounds = g.activeBounds ∧
    (g.AddGlider sx sy).activeBounds = g.activeBounds ∧
    (g.AddOscillator sx sy).activeBounds = g.activeBounds := by
  refine ⟨rfl, rfl, rfl, Set_activeBounds g x y alive, ?_, ?_, ?_⟩
  · unfold Grid.Randomize
    exact foldl_activeBounds_invariant _
      (fun g (p : Int × Int) => Set_activeBounds g p.1 p.2 _) g _
  · unfold Grid.AddGlider
    exact foldl_activeBounds_invariant _
      (fun g (row : Nat × List Bool) => foldl_activeBounds_invariant _
        (fun g (cell : Nat × Bool) => Set_activeBounds g _ _ _) g _) g _
  · unfold Grid.AddOscillator
    rw [Set_activeBounds, Set_activeBounds, Set_activeBounds]

/-! ## Claim C9: the generation step does not disturb the source grid -/

theorem nextGenerationBounded_fst (g : Grid) (pool : Option Grid) :
    (g.NextGenerationBounded pool).1 =
      if !g.activeBounds.valid then g.calculateActiveBounds else g := by
  simp only [Grid.NextGenerationBounded]
  split <;> split <;> rfl

/-- C9: both generation strategies leave the source grid's width, height,
cell matrix (and history) unchanged; the bounded strategy touches at most
the source's cached bounding-box metadata, the parallel strategy returns
the source completely untouched. The destinations are separate grids built
from the pool buffer or a fresh allocation. -/
theorem nextGeneration_preserves_source (g : Grid) (numWorkers : Nat)
    (pool1 pool2 : Option Grid) :
    (g.NextGenerationParallel numWorkers pool1).1 = g ∧
    (g.NextGenerationBounded pool2).1.width = g.width ∧
    (g.NextGenerationBounded pool2).1.height = g.height ∧
    (g.NextGenerationBounded pool2).1.cells = g.cells ∧
    (g.NextGenerationBounded pool2).1.history = g.history := by
  refine ⟨rfl, ?_, ?_, ?_, ?_⟩ <;>
    rw [nextGenerationBounded_fst] <;> split <;> rfl

/-! ## Claim C8: pooled buffers come back clean -/

theorem Reset_cells (g : Grid) (w h : Int) : (g.Reset w h).cells = mkCells w h := by
  simp only [Grid.Reset, mkCells]
  rw [List.eq_replicate_iff]
  constructor
  · rw [List.length_map]
    split
    · rename_i hlen
      omega
    · simp
  · intro b hb
    rw [List.mem_map] at hb
    obtain ⟨row, hrow, rfl⟩ := hb
    split
    · rename_i hwidth
      rw [List.eq_replicate_iff]
      refine ⟨by rw [List.length_map]; omega, ?_⟩
      intro c hc
      rw [List.mem_map] at hc
      obtain ⟨_, _, rfl⟩ := hc
      rfl
    · rfl

/-- C8: `GridPool.Get` returns a grid with the requested dimensions, an
all-dead cell matrix, empty history and an invalid bounding-box cache,
whatever the prior state of the pooled buffer. -/
theorem gridPool_get_clean (buf : Grid) (w h : Int) (hw : 0 < w) (hh : 0 < h) :
    (GridPool.Get buf w h).width = w ∧
    (GridPool.Get buf w h).height = h ∧
    (GridPool.Get buf w h).cells = mkCells w h ∧
    (∀ x y : Int, (GridPool.Get buf w h).Get x y = false) ∧
    (GridPool.Get buf w h).history = [] ∧
    (GridPool.Get buf w h).activeBounds.valid = false := by
  refine ⟨rfl, rfl, Reset_cells buf w h, ?_, rfl, rfl⟩
  intro x y
  unfold Grid.Get
  split
  · rfl
  · rw [show (GridPool.Get buf w h).cells = mkCells w h from Reset_cells buf w h]
    exact matGet_mkCells _ _ _ _

/-- Witness for C8: a dirty 1×3 buffer (live cells, history, valid bounds)
reset to 4×2. -/
theorem gridPool_get_clean_witness :
    (0 : Int) < 4 ∧ (0 : Int) < 2 ∧
      ((GridPool.Get (Grid.mk 1 3 [[true], [false], [true]] [[true]]
          ⟨0, 0, 2, 2, true⟩) 4 2).width = 4 ∧
       (GridPool.Get (Grid.mk 1 3 [[true], [false], [true]] [[true]]
          ⟨0, 0, 2, 2, true⟩) 4 2).height = 2 ∧
       (GridPool.Get (Grid.mk 1 3 [[true], [false], [true]] [[true]]
          ⟨0, 0, 2, 2, true⟩) 4 2).cells = mkCells 4 2 ∧
       (∀ x y : Int, (GridPool.Get (Grid.mk 1 3 [[true], [false], [true]] [[true]]
          ⟨0, 0, 2, 2, true⟩) 4 2).Get x y = false) ∧
       (GridPool.Get (Grid.mk 1 3 [[true], [false], [true]] [[true]]
          ⟨0, 0, 2, 2, true⟩) 4 2).history = [] ∧
       (GridPool.Get (Grid.mk 1 3 [[true], [false], [true]] [[true]]
          ⟨0, 0, 2, 2, true⟩) 4 2).activeBounds.valid = false) :=
  ⟨by decide, by decide,
    gridPool_get_clean (Grid.mk 1 3 [[true], [false], [true]] [[true]]
      ⟨0, 0, 2, 2, true⟩) 4 2 (by decide) (by decide)⟩

/-! ## Claim C5: the computed bounding box is tight -/

theorem calcBoundsStep_facts (g : Grid) (b : ActiveBounds) (p : Int × Int) :
    (calcBoundsStep g b p).valid = (b.valid || matGet g.cells p.1 p.2) ∧
    (b.valid = true →
      (calcBoundsStep g b p).minX ≤ b.minX ∧ b.maxX ≤ (calcBoundsStep g b p).maxX ∧
      (calcBoundsStep g b p).minY ≤ b.minY ∧ b.maxY ≤ (calcBoundsStep g b p).maxY) ∧
    (matGet g.cells p.1 p.2 = true →
      (calcBoundsStep g b p).minX ≤ p.1 ∧ p.1 ≤ (calcBoundsStep g b p).maxX ∧
      (calcBoundsStep g b p).minY ≤ p.2 ∧ p.2 ≤ (calcBoundsStep g b p).maxY) ∧
    ((calcBoundsStep g b p).minX = b.minX ∨ (calcBoundsStep g b p).minX = p.1) ∧
    ((calcBoundsStep g b p).maxX = b.maxX ∨ (calcBoundsStep g b p).maxX = p.1) ∧
    ((calcBoundsStep g b p).minY = b.minY ∨ (calcBoundsStep g b p).minY = p.2) ∧
    ((calcBoundsStep g b p).maxY = b.maxY ∨ (calcBoundsStep g b p).maxY = p.2) ∧
    (matGet g.cells p.1 p.2 = false → calcBoundsStep g b p = b) ∧
    (b.valid = false → matGet g.cells p.1 p.2 = true →
      (calcBoundsStep g b p).minX = p.1 ∧ (calcBoundsStep g b p).maxX = p.1 ∧
      (calcBoundsStep g b p).minY = p.2 ∧ (calcBoundsStep g b p).maxY = p.2) := by
  unfold calcBoundsStep
  by_cases hlive : matGet g.cells p.1 p.2 = true
  · rw [if_pos hlive]
    by_cases hv : b.valid
    · rw [hv]
      simp only [Bool.not_true, if_false, hlive]
      refine ⟨by simp, ?_, ?_, ?_, ?_, ?_, ?_, by simp [hlive], by simp [hv]⟩ <;>
        simp <;> omega
    · rw [show b.valid = false by simpa using hv]
      simp only [Bool.not_false, if_true, hlive]
      refine ⟨by simp, by simp [hv] at *, ?_, ?_, ?_, ?_, ?_, by simp [hlive], ?_⟩ <;>
        simp <;> omega
  · rw [if_neg hlive]
    simp at hlive
    simp [hlive]

theorem calcFold_spec (g : Grid) (L : List (Int × Int)) (b : ActiveBounds) :
    ((L.foldl (calcBoundsStep g) b).valid
        = (b.valid || L.any (fun p => matGet g.cells p.1 p.2))) ∧
    (b.valid = true →
      (L.foldl (calcBoundsStep g) b).minX ≤ b.minX ∧
      b.maxX ≤ (L.foldl (calcBoundsStep g) b).maxX ∧
      (L.foldl (calcBoundsStep g) b).minY ≤ b.minY ∧
      b.maxY ≤ (L.foldl (calcBoundsStep g) b).maxY) ∧
    (∀ p ∈ L, matGet g.cells p.1 p.2 = true →
      (L.foldl (calcBoundsStep g) b).minX ≤ p.1 ∧
      p.1 ≤ (L.foldl (calcBoundsStep g) b).maxX ∧
      (L.foldl (calcBoundsStep g) b).minY ≤ p.2 ∧
      p.2 ≤ (L.foldl (calcBoundsStep g) b).maxY) ∧
    ((b.valid = true ∧ (L.foldl (calcBoundsStep g) b).minX = b.minX) ∨
      (L.foldl (calcBoundsStep g) b).minX = b.minX ∧ b.valid = false ∧ L.all (fun p => !matGet g.cells p.1 p.2) = true ∨
      ∃ p ∈ L, matGet g.cells p.1 p.2 = true ∧ (L.foldl (calcBoundsStep g) b).minX = p.1) ∧
    ((b.valid = true ∧ (L.foldl (calcBoundsStep g) b).maxX = b.maxX) ∨
      (L.foldl (calcBoundsStep g) b).maxX = b.maxX ∧ b.valid = false ∧ L.all (fun p => !matGet g.cells p.1 p.2) = true ∨
      ∃ p ∈ L, matGet g.cells p.1 p.2 = true ∧ (L.foldl (calcBoundsStep g) b).maxX = p.1) ∧
    ((b.valid = true ∧ (L.foldl (calcBoundsStep g) b).minY = b.minY) ∨
      (L.foldl (calcBoundsStep g) b).minY = b.minY ∧ b.valid = false ∧ L.all (fun p => !matGet g.cells p.1 p.2) = true ∨
      ∃ p ∈ L, matGet g.cells p.1 p.2 = true ∧ (L.foldl (calcBoundsStep g) b).minY = p.2) ∧
    ((b.valid = true ∧ (L.foldl (calcBoundsStep g) b).maxY = b.maxY) ∨
      (L.foldl (calcBoundsStep g) b).maxY = b.maxY ∧ b.valid = false ∧ L.all (fun p => !matGet g.cells p.1 p.2) = true ∨
      ∃ p ∈ L, matGet g.cells p.1 p.2 = true ∧ (L.foldl (calcBoundsStep g) b).maxY = p.2) := by
  induction L generalizing b with
  | nil =>
    refine ⟨by simp, by simp, by simp, ?_, ?_, ?_, ?_⟩ <;>
      · by_cases hv : b.valid
        · exact Or.inl ⟨hv, rfl⟩
        · exact Or.inr (Or.inl ⟨rfl, by simpa using hv, by simp⟩)
  | cons p L ih =>
    simp only [List.foldl_cons]
    obtain ⟨ih1, ih2, ih3, ih4, ih5, ih6, ih7⟩ := ih (calcBoundsStep g b p)
    obtain ⟨s1, s2, s3, s4, s5, s6, s7, s8, s9⟩ := calcBoundsStep_facts g b p
    refine ⟨?_, ?_, ?_, ?_, ?_, ?_, ?_⟩
    · rw [ih1, s1, List.any_cons]
      cases b.valid <;> cases matGet g.cells p.1 p.2 <;> simp
    · intro hv
      have hv' : (calcBoundsStep g b p).valid = true := by rw [s1, hv]; simp
      have h2 := ih2 hv'
      have hs2 := s2 hv
      exact ⟨by omega, by omega, by omega, by omega⟩
    · intro q hq hliveq
      rcases List.mem_cons.mp hq with rfl | hq
      · have hv' : (calcBoundsStep g b q).valid = true := by
          rw [s1, hliveq]; simp
        have h2 := ih2 hv'
        have hs3 := s3 hliveq
        exact ⟨by omega, by omega, by omega, by omega⟩
      · exact ih3 q hq hliveq
    · rcases ih4 with ⟨hv', hmin⟩ | ⟨hmin, hv', hall⟩ | ⟨q, hq, hliveq, hmin⟩
      · -- the tail fold kept the step's minX and the step was valid
        by_cases hv : b.valid
        · rcases s4 with hcase | hcase
          · exact Or.inl ⟨hv, by omega⟩
          · by_cases hlive : matGet g.cells p.1 p.2 = true
            · exact Or.inr (Or.inr ⟨p, List.mem_cons_self _ _, hlive, by omega⟩)
            · have := s8 (by simpa using hlive)
              exact Or.inl ⟨hv, by rw [hmin, this]⟩
        · -- b invalid but step valid: the step cell is live and sets minX = p.1
          have hlive : matGet g.cells p.1 p.2 = true := by
            rw [s1] at hv'
            simpa [show b.valid = false by simpa using hv] using hv'
          have := s9 (by simpa using hv) hlive
          exact Or.inr (Or.inr ⟨p, List.mem_cons_self _ _, hlive, by omega⟩)
      · -- the whole tail is dead and the step left the box alone
        by_cases hlive : matGet g.cells p.1 p.2 = true
        · rw [s1] at hv'
          simp [hlive] at hv'
        · have hstep := s8 (by simpa using hlive)
          by_cases hv : b.valid
          · exact Or.inl ⟨hv, by rw [hmin, hstep]⟩
          · refine Or.inr (Or.inl ⟨by rw [hmin, hstep], by simpa using hv, ?_⟩)
            rw [List.all_cons]
            simp [show matGet g.cells p.1 p.2 = false by simpa using hlive, hall]
      · exact Or.inr (Or.inr ⟨q, List.mem_cons_of_mem _ hq, hliveq, hmin⟩)
    · rcases ih5 with ⟨hv', hmax⟩ | ⟨hmax, hv', hall⟩ | ⟨q, hq, hliveq, hmax⟩
      · by_cases hv : b.valid
        · rcases s5 with hcase | hcase
          · exact Or.inl ⟨hv, by omega⟩
          · by_cases hlive : matGet g.cells p.1 p.2 = true
            · exact Or.inr (Or.inr ⟨p, List.mem_cons_self _ _, hlive, by omega⟩)
            · have := s8 (by simpa using hlive)
              exact Or.inl ⟨hv, by rw [hmax, this]⟩
        · have hlive : matGet g.cells p.1 p.2 = true := by
            rw [s1] at hv'
            simpa [show b.valid = false by simpa using hv] using hv'
          have := s9 (by simpa using hv) hlive
          exact Or.inr (Or.inr ⟨p, List.mem_cons_self _ _, hlive, by omega⟩)
      · by_cases hlive : matGet g.cells p.1 p.2 = true
        · rw [s1] at hv'
          simp [hlive] at hv'
        · have hstep := s8 (by simpa using hlive)
          by_cases hv : b.valid
          · exact Or.inl ⟨hv, by rw [hmax, hstep]⟩
          · refine Or.inr (Or.inl ⟨by rw [hmax, hstep], by simpa using hv, ?_⟩)
            rw [List.all_cons]
            simp [show matGet g.cells p.1 p.2 = false by simpa using hlive, hall]
      · exact Or.inr (Or.inr ⟨q, List.mem_cons_of_mem _ hq, hliveq, hmax⟩)
    · rcases ih6 with ⟨hv', hmin⟩ | ⟨hmin, hv', hall⟩ | ⟨q, hq, hliveq, hmin⟩
      · by_cases hv : b.valid
        · rcases s6 with hcase | hcase
          · exact Or.inl ⟨hv, by omega⟩
          · by_cases hlive : matGet g.cells p.1 p.2 = true
            · exact Or.inr (Or.inr ⟨p, List.mem_cons_self _ _, hlive, by omega⟩)
            · have := s8 (by simpa using hlive)
              exact Or.inl ⟨hv, by rw [hmin, this]⟩
        · have hlive : matGet g.cells p.1 p.2 = true := by
            rw [s1] at hv'
            simpa [show b.valid = false by simpa using hv] using hv'
          have := s9 (by simpa using hv) hlive
          exact Or.inr (Or.inr ⟨p, List.mem_cons_self _ _, hlive, by omega⟩)
      · by_cases hlive : matGet g.cells p.1 p.2 = true
        · rw [s1] at hv'
          simp [hlive] at hv'
        · have hstep := s8 (by simpa using hlive)
          by_cases hv : b.valid
          · exact Or.inl ⟨hv, by rw [hmin, hstep]⟩
          · refine Or.inr (Or.inl ⟨by rw [hmin, hstep], by simpa using hv, ?_⟩)
            rw [List.all_cons]
            simp [show matGet g.cells p.1 p.2 = false by simpa using hlive, hall]
      · exact Or.inr (Or.inr ⟨q, List.mem_cons_of_mem _ hq, hliveq, hmin⟩)
    · rcases ih7 with ⟨hv', hmax⟩ | ⟨hmax, hv', hall⟩ | ⟨q, hq, hliveq, hmax⟩
      · by_cases hv : b.valid
        · rcases s7 with hcase | hcase
          · exact Or.inl ⟨hv, by omega⟩
          · by_cases hlive : matGet g.cells p.1 p.2 = true
            · exact Or.inr (Or.inr ⟨p, List.mem_cons_self _ _, hlive, by omega⟩)
            · have := s8 (by simpa using hlive)
              exact Or.inl ⟨hv, by rw [hmax, this]⟩
        · have hlive : matGet g.cells p.1 p.2 = true := by
            rw [s1] at hv'
            simpa [show b.valid = false by simpa using hv] using hv'
          have := s9 (by simpa using hv) hlive
          exact Or.inr (Or.inr ⟨p, List.mem_cons_self _ _, hlive, by omega⟩)
      · by_cases hlive : matGet g.cells p.1 p.2 = true
        · rw [s1] at hv'
          simp [hlive] at hv'
        · have hstep := s8 (by simpa using hlive)
          by_cases hv : b.valid
          · exact Or.inl ⟨hv, by rw [hmax, hstep]⟩
          · refine Or.inr (Or.inl ⟨by rw [hmax, hstep], by simpa using hv, ?_⟩)
            rw [List.all_cons]
            simp [show matGet g.cells p.1 p.2 = false by simpa using hlive, hall]
      · exact Or.inr (Or.inr ⟨q, List.mem_cons_of_mem _ hq, hliveq, hmax⟩)

theorem Get_true_in_range {g : Grid} {x y : Int} (h : g.Get x y = true) :
    0 ≤ x ∧ x < g.width ∧ 0 ≤ y ∧ y < g.height := by
  unfold Grid.Get at h
  by_cases hc : x < 0 ∨ g.width ≤ x ∨ y < 0 ∨ g.height ≤ y
  · rw [if_pos hc] at h
    cases h
  · omega

theorem calc_activeBounds_eq (g : Grid) :
    (g.calculateActiveBounds).activeBounds =
      (gridPairs g).foldl (calcBoundsStep g)
        ({ g.activeBounds with valid := false }) := rfl

theorem calc_valid_false_of_dead {g : Grid} (hdead : ∀ x y : Int, g.Get x y = false) :
    (g.calculateActiveBounds).activeBounds.valid = false := by
  have hfold := (calcFold_spec g (gridPairs g) ({ g.activeBounds with valid := false })).1
  have hany : (gridPairs g).any (fun p => matGet g.cells p.1 p.2) = false := by
    rw [List.any_eq_false]
    intro p hp
    have hin := mem_gridPairs.mp hp
    have hg := hdead p.1 p.2
    rw [Get_eq_matGet hin.1 hin.2.1 hin.2.2.1 hin.2.2.2] at hg
    simp [hg]
  rw [calc_activeBounds_eq, hfold, hany]
  simp

/-- C5: with at least one living cell, `calculateActiveBounds` marks the
cache valid and records exactly the minimum and maximum x and y over the
living cells (every living cell lies in the box and each edge is attained),
and `GetBoundingBoxSize` then returns `(maxX-minX+1)·(maxY-minY+1)`; on an
all-dead grid it leaves the cache invalid and `GetBoundingBoxSize`
returns 0. -/
theorem calculateActiveBounds_tight (g : Grid) (hwf : WF g) :
    ((∃ x y : Int, g.Get x y = true) →
      (g.calculateActiveBounds).activeBounds.valid = true ∧
      (∀ x y : Int, g.Get x y = true →
        (g.calculateActiveBounds).activeBounds.minX ≤ x ∧
        x ≤ (g.calculateActiveBounds).activeBounds.maxX ∧
        (g.calculateActiveBounds).activeBounds.minY ≤ y ∧
        y ≤ (g.calculateActiveBounds).activeBounds.maxY) ∧
      (∃ x y : Int, g.Get x y = true ∧ x = (g.calculateActiveBounds).activeBounds.minX) ∧
      (∃ x y : Int, g.Get x y = true ∧ x = (g.calculateActiveBounds).activeBounds.maxX) ∧
      (∃ x y : Int, g.Get x y = true ∧ y = (g.calculateActiveBounds).activeBounds.minY) ∧
      (∃ x y : Int, g.Get x y = true ∧ y = (g.calculateActiveBounds).activeBounds.maxY) ∧
      ((g.calculateActiveBounds).GetBoundingBoxSize).1 =
        ((g.calculateActiveBounds).activeBounds.maxX -
          (g.calculateActiveBounds).activeBounds.minX + 1) *
        ((g.calculateActiveBounds).activeBounds.maxY -
          (g.calculateActiveBounds).activeBounds.minY + 1)) ∧
    ((∀ x y : Int, g.Get x y = false) →
      (g.calculateActiveBounds).activeBounds.valid = false ∧
      ((g.calculateActiveBounds).GetBoundingBoxSize).1 = 0) := by
  obtain ⟨hfold1, _, hfold3, hfold4, hfold5, hfold6, hfold7⟩ :=
    calcFold_spec g (gridPairs g) ({ g.activeBounds with valid := false })
  constructor
  · rintro ⟨x, y, hlive⟩
    have hin := Get_true_in_range hlive
    have hmat : matGet g.cells x y = true := by
      rw [← Get_eq_matGet hin.1 hin.2.1 hin.2.2.1 hin.2.2.2]
      exact hlive
    have hvalid : (g.calculateActiveBounds).activeBounds.valid = true := by
      rw [calc_activeBounds_eq, hfold1]
      have : (gridPairs g).any (fun p => matGet g.cells p.1 p.2) = true :=
        List.any_eq_true.mpr ⟨(x, y), mem_gridPairs.mpr (by exact ⟨hin.1, hin.2.1, hin.2.2.1, hin.2.2.2⟩), hmat⟩
      rw [this]
      rfl
    refine ⟨hvalid, ?_, ?_, ?_, ?_, ?_, ?_⟩
    · intro x' y' hl'
      have hin' := Get_true_in_range hl'
      have hmat' : matGet g.cells x' y' = true := by
        rw [← Get_eq_matGet hin'.1 hin'.2.1 hin'.2.2.1 hin'.2.2.2]
        exact hl'
      have := hfold3 (x', y') (mem_gridPairs.mpr (by exact ⟨hin'.1, hin'.2.1, hin'.2.2.1, hin'.2.2.2⟩)) hmat'
      rw [calc_activeBounds_eq]
      exact this
    · rcases hfold4 with ⟨hv, _⟩ | ⟨_, _, hall⟩ | ⟨p, hp, hlivep, hminx⟩
      · cases hv
      · have := List.all_eq_true.mp hall (x, y) (mem_gridPairs.mpr (by exact ⟨hin.1, hin.2.1, hin.2.2.1, hin.2.2.2⟩))
        rw [hmat] at this
        cases this
      · have hinp := mem_gridPairs.mp hp
        refine ⟨p.1, p.2, ?_, ?_⟩
        · rw [Get_eq_matGet hinp.1 hinp.2.1 hinp.2.2.1 hinp.2.2.2]
          exact hlivep
        · rw [calc_activeBounds_eq, hminx]
    · rcases hfold5 with ⟨hv, _⟩ | ⟨_, _, hall⟩ | ⟨p, hp, hlivep, hmaxx⟩
      · cases hv
      · have := List.all_eq_true.mp hall (x, y) (mem_gridPairs.mpr (by exact ⟨hin.1, hin.2.1, hin.2.2.1, hin.2.2.2⟩))
        rw [hmat] at this
        cases this
      · have hinp := mem_gridPairs.mp hp
        refine ⟨p.1, p.2, ?_, ?_⟩
        · rw [Get_eq_matGet hinp.1 hinp.2.1 hinp.2.2.1 hinp.2.2.2]
          exact hlivep
        · rw [calc_activeBounds_eq, hmaxx]
    · rcases hfold6 with ⟨hv, _⟩ | ⟨_, _, hall⟩ | ⟨p, hp, hlivep, hminy⟩
      · cases hv
      · have := List.all_eq_true.mp hall (x, y) (mem_gridPairs.mpr (by exact ⟨hin.1, hin.2.1, hin.2.2.1, hin.2.2.2⟩))
        rw [hmat] at this
        cases this
      · have hinp := mem_gridPairs.mp hp
        refine ⟨p.1, p.2, ?_, ?_⟩
        · rw [Get_eq_matGet hinp.1 hinp.2.1 hinp.2.2.1 hinp.2.2.2]
          exact hlivep
        · rw [calc_activeBounds_eq, hminy]
    · rcases hfold7 with ⟨hv, _⟩ | ⟨_, _, hall⟩ | ⟨p, hp, hlivep, hmaxy⟩
      · cases hv
      · have := List.all_eq_true.mp hall (x, y) (mem_gridPairs.mpr (by exact ⟨hin.1, hin.2.1, hin.2.2.1, hin.2.2.2⟩))
        rw [hmat] at this
        cases this
      · have hinp := mem_gridPairs.mp hp
        refine ⟨p.1, p.2, ?_, ?_⟩
        · rw [Get_eq_matGet hinp.1 hinp.2.1 hinp.2.2.1 hinp.2.2.2]
          exact hlivep
        · rw [calc_activeBounds_eq, hmaxy]
    · unfold Grid.GetBoundingBoxSize
      simp [hvalid]
  · intro hdead
    have hv : (g.calculateActiveBounds).activeBounds.valid = false :=
      calc_valid_false_of_dead hdead
    refine ⟨hv, ?_⟩
    have hv2 : ((g.calculateActiveBounds).calculateActiveBounds).activeBounds.valid = false :=
      calc_valid_false_of_dead (fun x y => hdead x y)
    unfold Grid.GetBoundingBoxSize
    simp [hv, hv2]

/-- Witness for C5 on a 3×2 grid with one living cell at (1, 0). -/
theorem calculateActiveBounds_tight_witness :
    WF ((NewGrid 3 2).Set 1 0 true) ∧
    (((∃ x y : Int, ((NewGrid 3 2).Set 1 0 true).Get x y = true) →
      (((NewGrid 3 2).Set 1 0 true).calculateActiveBounds).activeBounds.valid = true ∧
      (∀ x y : Int, ((NewGrid 3 2).Set 1 0 true).Get x y = true →
        (((NewGrid 3 2).Set 1 0 true).calculateActiveBounds).activeBounds.minX ≤ x ∧
        x ≤ (((NewGrid 3 2).Set 1 0 true).calculateActiveBounds).activeBounds.maxX ∧
        (((NewGrid 3 2).Set 1 0 true).calculateActiveBounds).activeBounds.minY ≤ y ∧
        y ≤ (((NewGrid 3 2).Set 1 0 true).calculateActiveBounds).activeBounds.maxY) ∧
      (∃ x y : Int, ((NewGrid 3 2).Set 1 0 true).Get x y = true ∧ x = (((NewGrid 3 2).Set 1 0 true).calculateActiveBounds).activeBounds.minX) ∧
      (∃ x y : Int, ((NewGrid 3 2).Set 1 0 true).Get x y = true ∧ x = (((NewGrid 3 2).Set 1 0 true).calculateActiveBounds).activeBounds.maxX) ∧
      (∃ x y : Int, ((NewGrid 3 2).Set 1 0 true).Get x y = true ∧ y = (((NewGrid 3 2).Set 1 0 true).calculateActiveBounds).activeBounds.minY) ∧
      (∃ x y : Int, ((NewGrid 3 2).Set 1 0 true).Get x y = true ∧ y = (((NewGrid 3 2).Set 1 0 true).calculateActiveBounds).activeBounds.maxY) ∧
      ((((NewGrid 3 2).Set 1 0 true).calculateActiveBounds).GetBoundingBoxSize).1 =
        ((((NewGrid 3 2).Set 1 0 true).calculateActiveBounds).activeBounds.maxX -
          (((NewGrid 3 2).Set 1 0 true).calculateActiveBounds).activeBounds.minX + 1) *
        ((((NewGrid 3 2).Set 1 0 true).calculateActiveBounds).activeBounds.maxY -
          (((NewGrid 3 2).Set 1 0 true).calculateActiveBounds).activeBounds.minY + 1)) ∧
    ((∀ x y : Int, ((NewGrid 3 2).Set 1 0 true).Get x y = false) →
      (((NewGrid 3 2).Set 1 0 true).calculateActiveBounds).activeBounds.valid = false ∧
      ((((NewGrid 3 2).Set 1 0 true).calculateActiveBounds).GetBoundingBoxSize).1 = 0)) :=
  ⟨by decide, calculateActiveBounds_tight ((NewGrid 3 2).Set 1 0 true) (by decide)⟩

/-! ## Claim C7: the stagnation check against the last three hashes -/

theorem mem_last_three {l : List (List Bool)} {h : List Bool} (hlen : 3 ≤ l.length) :
    h ∈ l.reverse.take 3 ↔
      h = l.getD (l.length - 1) [] ∨ h = l.getD (l.length - 2) [] ∨
        h = l.getD (l.length - 3) [] := by
  have htlen : (l.reverse.take 3).length = 3 := by
    simp
    omega
  rw [List.mem_iff_getElem]
  constructor
  · rintro ⟨i, hi, heq⟩
    rw [htlen] at hi
    rw [List.getElem_take, List.getElem_reverse] at heq
    have hgd : l.getD (l.length - 1 - i) [] = h := by
      rw [List.getD_eq_getElem _ _ (by omega)]
      exact heq
    interval_cases i
    · exact Or.inl hgd.symm
    · rw [show l.length - 1 - 1 = l.length - 2 from by omega] at hgd
      exact Or.inr (Or.inl hgd.symm)
    · rw [show l.length - 1 - 2 = l.length - 3 from by omega] at hgd
      exact Or.inr (Or.inr hgd.symm)
  · have hbase : ∀ k : Nat, k < 3 → h = l.getD (l.length - 1 - k) [] →
        ∃ (i : Nat) (hi : i < (l.reverse.take 3).length), (l.reverse.take 3)[i] = h := by
      intro k hk heq
      refine ⟨k, by omega, ?_⟩
      rw [List.getElem_take, List.getElem_reverse]
      rw [heq, List.getD_eq_getElem _ _ (by omega)]
    rintro (heq | heq | heq)
    · exact hbase 0 (by omega) heq
    · exact hbase 1 (by omega)
        (by rw [show l.length - 1 - 1 = l.length - 2 from by omega]; exact heq)
    · exact hbase 2 (by omega)
        (by rw [show l.length - 1 - 2 = l.length - 3 from by omega]; exact heq)

/-- C7: `IsStagnant` is false whenever the history holds fewer than three
entries, and otherwise is true exactly when the grid's current content hash
matches one of the three most recently recorded history hashes. -/
theorem isStagnant_matches_recent_history (g : Grid) :
    g.IsStagnant = true ↔
      3 ≤ g.history.length ∧ g.GetGridHash ∈ g.history.reverse.take 3 := by
  unfold Grid.IsStagnant
  by_cases hlen : g.history.length < 3
  · rw [if_pos hlen]
    simp only [Bool.false_eq_true, false_iff]
    rintro ⟨h3, _⟩
    omega
  · rw [if_neg hlen]
    push_neg at hlen
    rw [mem_last_three hlen]
    dsimp only
    have d1 : decide (0 < g.history.length) = true := by simp; omega
    have d2 : decide (2 ≤ g.history.length) = true := by simp; omega
    have d3 : decide (3 ≤ g.history.length) = true := by simp; omega
    rw [d1, d2, d3]
    simp only [Bool.true_and, Bool.or_eq_true, beq_iff_eq]
    constructor
    · rintro ((h | h) | h)
      · exact ⟨hlen, Or.inl h.symm⟩
      · exact ⟨hlen, Or.inr (Or.inl h.symm)⟩
      · exact ⟨hlen, Or.inr (Or.inr h.symm)⟩
    · rintro ⟨_, (h | h | h)⟩
      · exact Or.inl (Or.inl h.symm)
      · exact Or.inl (Or.inr h.symm)
      · exact Or.inr h.symm

/-! ## Claim C10: totality and range of the neighbour count -/

theorem length_pairList (xs ys : List Int) :
    (ys.flatMap (fun y => xs.map (fun x => ((x, y) : Int × Int)))).length
      = ys.length * xs.length := by
  induction ys with
  | nil => simp
  | cons a ys ih =>
    simp only [List.flatMap_cons, List.length_append, List.length_map, ih,
      List.length_cons]
    ring

theorem window_length (g : Grid) (x y : Int) :
    (g.neighborWindow x y).length =
      (min (g.height - 1) (y + 1) + 1 - max 0 (y - 1)).toNat *
        (min (g.width - 1) (x + 1) + 1 - max 0 (x - 1)).toNat := by
  unfold Grid.neighborWindow
  rw [length_pairList]
  unfold intRange
  simp

/-- C10 amended: `CountNeighborsOptimized` is total on every integer pair,
scans only in-range cells, and its result lies in 0..8; when the coordinate
lies at least two cells outside the grid on some axis the clamped window is
empty and the count is 0 (a coordinate exactly one cell outside still scans
the adjacent edge cells, so the original "outside implies 0" claim fails). -/
theorem countNeighbors_total_safe (g : Grid) (x y : Int) (hwf : WF g) :
    (∀ p ∈ g.neighborWindow x y,
       0 ≤ p.1 ∧ p.1 < g.width ∧ 0 ≤ p.2 ∧ p.2 < g.height) ∧
    0 ≤ g.CountNeighborsOptimized x y ∧ g.CountNeighborsOptimized x y ≤ 8 ∧
    ((x ≤ -2 ∨ g.width + 1 ≤ x ∨ y ≤ -2 ∨ g.height + 1 ≤ y) →
      g.neighborWindow x y = [] ∧ g.CountNeighborsOptimized x y = 0) := by
  refine ⟨?_, ?_, ?_, ?_⟩
  · intro p hp
    rw [mem_neighborWindow] at hp
    omega
  · unfold Grid.CountNeighborsOptimized
    exact Int.natCast_nonneg _
  · unfold Grid.CountNeighborsOptimized
    have hlen := window_length g x y
    have hcount := List.countP_le_length
      (p := fun p => !(p.1 == x && p.2 == y) && matGet g.cells p.1 p.2)
      (l := g.neighborWindow x y)
    have h3a : (min (g.height - 1) (y + 1) + 1 - max 0 (y - 1)).toNat ≤ 3 := by omega
    have h3b : (min (g.width - 1) (x + 1) + 1 - max 0 (x - 1)).toNat ≤ 3 := by omega
    by_cases hin : 0 ≤ x ∧ x < g.width ∧ 0 ≤ y ∧ y < g.height
    · -- the centre cell is inside the window and always fails the predicate
      have hmemc : ((x, y) : Int × Int) ∈ g.neighborWindow x y := by
        rw [mem_neighborWindow]
        omega
      have hsplit := List.length_eq_countP_add_countP
        (fun p => !(p.1 == x && p.2 == y) && matGet g.cells p.1 p.2)
        (g.neighborWindow x y)
      simp only [] at hsplit
      have hpos : 0 < (g.neighborWindow x y).countP
          (fun a => decide ¬((!(a.1 == x && a.2 == y) && matGet g.cells a.1 a.2) = true)) := by
        rw [List.countP_pos]
        exact ⟨(x, y), hmemc, by simp⟩
      have hwin9 : (g.neighborWindow x y).length ≤ 9 := by
        rw [hlen]
        calc _ ≤ 3 * 3 := Nat.mul_le_mul h3a h3b
          _ = 9 := by norm_num
      omega
    · -- the centre is out of range: the window spans at most one column or row
      have h1 : (min (g.height - 1) (y + 1) + 1 - max 0 (y - 1)).toNat ≤ 1 ∨
          (min (g.width - 1) (x + 1) + 1 - max 0 (x - 1)).toNat ≤ 1 := by omega
      have hle : (g.neighborWindow x y).length ≤ 3 := by
        rw [hlen]
        rcases h1 with h1 | h1
        · calc _ ≤ 1 * 3 := Nat.mul_le_mul h1 h3b
            _ = 3 := by norm_num
        · calc _ ≤ 3 * 1 := Nat.mul_le_mul h3a h1
            _ = 3 := by norm_num
      have hfin : (g.neighborWindow x y).countP
          (fun p => !(p.1 == x && p.2 == y) && matGet g.cells p.1 p.2) ≤ 3 :=
        le_trans hcount hle
      omega
  · intro hout
    have hnil : g.neighborWindow x y = [] := by
      rw [List.eq_nil_iff_forall_not_mem]
      intro p hp
      rw [mem_neighborWindow] at hp
      omega
    refine ⟨hnil, ?_⟩
    unfold Grid.CountNeighborsOptimized
    rw [hnil]
    rfl

/-- Witness for C10 at (5, -7) on a well-formed 3×2 grid: the coordinate is
far outside, so the window is empty and the count is 0. -/
theorem countNeighbors_total_safe_witness :
    WF ((NewGrid 3 2).Set 1 0 true) ∧
    ((∀ p ∈ ((NewGrid 3 2).Set 1 0 true).neighborWindow 5 (-7),
       0 ≤ p.1 ∧ p.1 < ((NewGrid 3 2).Set 1 0 true).width ∧
       0 ≤ p.2 ∧ p.2 < ((NewGrid 3 2).Set 1 0 true).height) ∧
    0 ≤ ((NewGrid 3 2).Set 1 0 true).CountNeighborsOptimized 5 (-7) ∧
    ((NewGrid 3 2).Set 1 0 true).CountNeighborsOptimized 5 (-7) ≤ 8 ∧
    ((5 ≤ -2 ∨ ((NewGrid 3 2).Set 1 0 true).width + 1 ≤ 5 ∨ (-7 : Int) ≤ -2 ∨
        ((NewGrid 3 2).Set 1 0 true).height + 1 ≤ -7) →
      ((NewGrid 3 2).Set 1 0 true).neighborWindow 5 (-7) = [] ∧
      ((NewGrid 3 2).Set 1 0 true).CountNeighborsOptimized 5 (-7) = 0)) :=
  ⟨by decide, countNeighbors_total_safe ((NewGrid 3 2).Set 1 0 true) 5 (-7) (by decide)⟩

/-- C10 counterexample: the coordinate (2, 0) lies outside the 2×2 grid, yet
the clamped scan window is nonempty and the count is 1, not 0: the claim
that an out-of-range coordinate always yields an empty window is false. -/
theorem countNeighbors_outside_nonzero_cx :
    ((NewGrid 2 2).Set 1 0 true).CountNeighborsOptimized 2 0 = 1 ∧
    ((NewGrid 2 2).Set 1 0 true).neighborWindow 2 0 ≠ [] := by decide

/-! ## Claim C6: the neighbour count agrees with the Moore-neighbourhood spec -/

theorem mem_shifted_offsets {x y : Int} {q : Int × Int} :
    q ∈ mooreOffsets.map (fun d => ((x + d.1, y + d.2) : Int × Int)) ↔
      x - 1 ≤ q.1 ∧ q.1 ≤ x + 1 ∧ y - 1 ≤ q.2 ∧ q.2 ≤ y + 1 ∧
        ¬(q.1 = x ∧ q.2 = y) := by
  simp only [mooreOffsets, List.map_cons, List.map_nil, List.mem_cons,
    List.not_mem_nil, or_false, Prod.ext_iff]
  obtain ⟨a, b⟩ := q
  simp only
  constructor
  · rintro (⟨h1, h2⟩ | ⟨h1, h2⟩ | ⟨h1, h2⟩ | ⟨h1, h2⟩ | ⟨h1, h2⟩ | ⟨h1, h2⟩ |
      ⟨h1, h2⟩ | ⟨h1, h2⟩) <;> omega
  · intro h
    omega

theorem nodup_shifted_offsets (x y : Int) :
    (mooreOffsets.map (fun d => ((x + d.1, y + d.2) : Int × Int))).Nodup := by
  refine List.Nodup.map ?_ (by decide)
  intro a b hab
  have h1 := congrArg Prod.fst hab
  have h2 := congrArg Prod.snd hab
  simp only at h1 h2
  exact Prod.ext (by omega) (by omega)

/-- C6: on every in-range cell, `CountNeighborsOptimized` equals the number
of living cells among the Moore neighbours that lie inside the grid, the
cell itself excluded. -/
theorem countNeighbors_eq_mooreCount (g : Grid) (x y : Int) (hwf : WF g)
    (hx0 : 0 ≤ x) (hxw : x < g.width) (hy0 : 0 ≤ y) (hyh : y < g.height) :
    g.CountNeighborsOptimized x y = mooreCount g x y := by
  unfold Grid.CountNeighborsOptimized mooreCount
  congr 1
  rw [List.countP_eq_length_filter, List.countP_eq_length_filter]
  have hmapfilter : (mooreOffsets.filter (fun d => g.Get (x + d.1) (y + d.2))).length
      = ((mooreOffsets.map (fun d => ((x + d.1, y + d.2) : Int × Int))).filter
          (fun p => g.Get p.1 p.2)).length := by
    rw [List.filter_map, List.length_map]
    rfl
  rw [hmapfilter]
  apply List.Perm.length_eq
  rw [List.perm_ext_iff_of_nodup
    (List.Nodup.filter _ (nodup_neighborWindow g x y))
    (List.Nodup.filter _ (nodup_shifted_offsets x y))]
  intro q
  rw [List.mem_filter, List.mem_filter, mem_neighborWindow, mem_shifted_offsets]
  constructor
  · rintro ⟨hbounds, hpred⟩
    rw [Bool.and_eq_true, Bool.not_eq_true', Bool.and_eq_false_iff] at hpred
    obtain ⟨hcent, hmat⟩ := hpred
    have hget : g.Get q.1 q.2 = true := by
      rw [Get_eq_matGet (by omega) (by omega) (by omega) (by omega)]
      exact hmat
    refine ⟨⟨by omega, by omega, by omega, by omega, ?_⟩, hget⟩
    rintro ⟨rfl, rfl⟩
    rcases hcent with hc | hc <;> simp at hc
  · rintro ⟨⟨hb1, hb2, hb3, hb4, hcent⟩, hget⟩
    have hin := Get_true_in_range hget
    refine ⟨⟨⟨by omega, by omega⟩, by omega, by omega⟩, ?_⟩
    rw [Bool.and_eq_true, Bool.not_eq_true', Bool.and_eq_false_iff]
    constructor
    · by_cases hq1 : q.1 = x
      · right
        have : q.2 ≠ y := fun hq2 => hcent ⟨hq1, hq2⟩
        simp [this]
      · left
        simp [hq1]
    · rw [← Get_eq_matGet hin.1 hin.2.1 hin.2.2.1 hin.2.2.2]
      exact hget

/-- Witness for C6 at the centre cell (2, 2) of a 5×5 grid holding a
three-cell blinker. -/
theorem countNeighbors_eq_mooreCount_witness :
    WF ((NewGrid 5 5).AddOscillator 1 2) ∧ 0 ≤ (2 : Int) ∧
      (2 : Int) < ((NewGrid 5 5).AddOscillator 1 2).width ∧ 0 ≤ (2 : Int) ∧
      (2 : Int) < ((NewGrid 5 5).AddOscillator 1 2).height ∧
      ((NewGrid 5 5).AddOscillator 1 2).CountNeighborsOptimized 2 2 =
        mooreCount ((NewGrid 5 5).AddOscillator 1 2) 2 2 :=
  ⟨by decide, by decide, by decide, by decide, by decide,
    countNeighbors_eq_mooreCount ((NewGrid 5 5).AddOscillator 1 2) 2 2
      (by decide) (by decide) (by decide) (by decide) (by decide)⟩

/-! ## Claim C1: band coverage for the parallel strategy -/

theorem mem_bandRows {h : Int} {nw : Nat} (hnw : 1 ≤ nw) (hh : 0 ≤ h) (y : Int) :
    y ∈ bandRows h nw ↔ 0 ≤ y ∧ y < h := by
  have hnwZ : (0 : Int) < (nw : Int) := by exact_mod_cast hnw
  have hrpw0 : 0 ≤ rowsPerWorker h nw := Int.ediv_nonneg (by omega) (by omega)
  unfold bandRows
  rw [List.mem_flatMap]
  simp only [List.mem_range]
  constructor
  · rintro ⟨i, hi, hy⟩
    split at hy
    · cases hy
    · rename_i hns
      rw [mem_intRange] at hy
      have h0 : 0 ≤ (i : Int) * rowsPerWorker h nw :=
        mul_nonneg (by positivity) hrpw0
      omega
  · intro hy
    have hh1 : (1 : Int) ≤ h := by omega
    have hrpw1 : 1 ≤ rowsPerWorker h nw := by
      unfold rowsPerWorker
      have hkey := Int.ediv_add_emod (h + (nw : Int) - 1) (nw : Int)
      have hlt := Int.emod_lt_of_pos (h + (nw : Int) - 1) hnwZ
      have hge := Int.emod_nonneg (h + (nw : Int) - 1) (show (nw : Int) ≠ 0 by omega)
      by_contra hc
      push_neg at hc
      have hnp : (nw : Int) * ((h + (nw : Int) - 1) / (nw : Int)) ≤ 0 :=
        mul_nonpos_of_nonneg_of_nonpos (by omega) (by omega)
      linarith
    have hq0 : 0 ≤ y / rowsPerWorker h nw := Int.ediv_nonneg (by omega) (by omega)
    have hkey := Int.ediv_add_emod y (rowsPerWorker h nw)
    have hltq := Int.emod_lt_of_pos y (show 0 < rowsPerWorker h nw by omega)
    have hgeq := Int.emod_nonneg y (show rowsPerWorker h nw ≠ 0 by omega)
    have hstart : rowsPerWorker h nw * (y / rowsPerWorker h nw) ≤ y := by linarith
    have hend : y < rowsPerWorker h nw * (y / rowsPerWorker h nw) + rowsPerWorker h nw := by
      linarith
    have hmul : h ≤ (nw : Int) * rowsPerWorker h nw := by
      unfold rowsPerWorker
      have hkey2 := Int.ediv_add_emod (h + (nw : Int) - 1) (nw : Int)
      have hlt2 := Int.emod_lt_of_pos (h + (nw : Int) - 1) hnwZ
      linarith
    have hqlt : y / rowsPerWorker h nw < (nw : Int) := by
      by_contra hc
      push_neg at hc
      have hmm : (nw : Int) * rowsPerWorker h nw
          ≤ (y / rowsPerWorker h nw) * rowsPerWorker h nw :=
        mul_le_mul_of_nonneg_right hc (by omega)
      nlinarith [hstart, hmul, hy.2]
    refine ⟨(y / rowsPerWorker h nw).toNat, by omega, ?_⟩
    simp only [Int.toNat_of_nonneg hq0]
    rw [if_neg (by intro hcon; nlinarith [hstart])]
    rw [mem_intRange]
    refine ⟨by linarith [hstart], ?_⟩
    have hym : y < min ((y / rowsPerWorker h nw) * rowsPerWorker h nw
        + rowsPerWorker h nw) h := by
      rw [lt_min_iff]
      exact ⟨by linarith, hy.2⟩
    omega

theorem boundsAccurate_contains {g : Grid} (hacc : boundsAccurate g = true)
    (hvalid : g.activeBounds.valid = true) :
    ∀ q : Int × Int, q ∈ gridPairs g → matGet g.cells q.1 q.2 = true →
      g.activeBounds.minX ≤ q.1 ∧ q.1 ≤ g.activeBounds.maxX ∧
      g.activeBounds.minY ≤ q.2 ∧ q.2 ≤ g.activeBounds.maxY := by
  unfold boundsAccurate at hacc
  split at hacc
  · simp only [Bool.and_eq_true, List.all_eq_true] at hacc
    obtain ⟨⟨⟨⟨hcont, _⟩, _⟩, _⟩, _⟩ := hacc
    intro q hq hlive
    have hqq := hcont q hq
    simp only [hlive, Bool.not_true, Bool.false_or, Bool.and_eq_true,
      decide_eq_true_eq] at hqq
    exact ⟨hqq.1.1.1, hqq.1.1.2, hqq.1.2, hqq.2⟩
  · rename_i hf
    exact absurd hvalid hf

theorem boundsAccurate_invalid_dead {g : Grid} (hacc : boundsAccurate g = true)
    (hinvalid : g.activeBounds.valid = false) :
    ∀ q : Int × Int, q ∈ gridPairs g → matGet g.cells q.1 q.2 = false := by
  unfold boundsAccurate at hacc
  split at hacc
  · rename_i ht
    rw [hinvalid] at ht
    cases ht
  · rw [List.all_eq_true] at hacc
    intro q hq
    have hqq := hacc q hq
    simp only [Bool.not_eq_true'] at hqq
    exact hqq

theorem matGet_false_everywhere {g : Grid} (hwf : WF g)
    (hdead : ∀ q : Int × Int, q ∈ gridPairs g → matGet g.cells q.1 q.2 = false)
    (a b : Int) : matGet g.cells a b = false := by
  by_cases hin : 0 ≤ a ∧ a < g.width ∧ 0 ≤ b ∧ b < g.height
  · exact hdead (a, b) (mem_gridPairs.mpr hin)
  · exact matGet_out_of_range hwf.2.2 (by omega)

theorem liveNext_false_of_dead (g : Grid) (hwf : WF g)
    (hdead : ∀ q : Int × Int, q ∈ gridPairs g → matGet g.cells q.1 q.2 = false)
    (p : Int × Int) : g.liveNext p = false := by
  have hcnt : g.CountNeighborsOptimized p.1 p.2 = 0 := by
    unfold Grid.CountNeighborsOptimized
    rw [show (g.neighborWindow p.1 p.2).countP
        (fun q => !(q.1 == p.1 && q.2 == p.2) && matGet g.cells q.1 q.2) = 0 from
      List.countP_eq_zero.mpr (fun q _ => by
        simp [matGet_false_everywhere hwf hdead q.1 q.2])]
    rfl
  show ApplyConwayRules (g.CountNeighborsOptimized p.1 p.2) (matGet g.cells p.1 p.2) = false
  rw [hcnt, matGet_false_everywhere hwf hdead p.1 p.2]
  decide

theorem liveNext_false_far_from_box (g : Grid) (hwf : WF g)
    (hcont : ∀ q : Int × Int, q ∈ gridPairs g → matGet g.cells q.1 q.2 = true →
      g.activeBounds.minX ≤ q.1 ∧ q.1 ≤ g.activeBounds.maxX ∧
      g.activeBounds.minY ≤ q.2 ∧ q.2 ≤ g.activeBounds.maxY)
    (x y : Int) (hx0 : 0 ≤ x) (hxw : x < g.width) (hy0 : 0 ≤ y) (hyh : y < g.height)
    (hout : ¬(max 0 (g.activeBounds.minX - 1) ≤ x ∧
      x ≤ min (g.width - 1) (g.activeBounds.maxX + 1) ∧
      max 0 (g.activeBounds.minY - 1) ≤ y ∧
      y ≤ min (g.height - 1) (g.activeBounds.maxY + 1))) :
    g.liveNext (x, y) = false := by
  -- every cell of the scan window (the centre included) is dead out here
  have hdeadwin : ∀ q : Int × Int, q ∈ g.neighborWindow x y →
      matGet g.cells q.1 q.2 = false := by
    intro q hq
    rw [mem_neighborWindow] at hq
    by_contra hc
    have hqlive : matGet g.cells q.1 q.2 = true := by
      revert hc
      cases matGet g.cells q.1 q.2 <;> simp
    have hbox := hcont q (mem_gridPairs.mpr ⟨by omega, by omega, by omega, by omega⟩) hqlive
    omega
  have hcnt : g.CountNeighborsOptimized x y = 0 := by
    unfold Grid.CountNeighborsOptimized
    rw [show (g.neighborWindow x y).countP
        (fun q => !(q.1 == x && q.2 == y) && matGet g.cells q.1 q.2) = 0 from
      List.countP_eq_zero.mpr (fun q hq => by simp [hdeadwin q hq])]
    rfl
  have hcell : matGet g.cells x y = false := by
    by_contra hc
    have hl : matGet g.cells x y = true := by
      revert hc
      cases matGet g.cells x y <;> simp
    have hbox := hcont (x, y) (mem_gridPairs.mpr ⟨hx0, hxw, hy0, hyh⟩) hl
    omega
  show ApplyConwayRules (g.CountNeighborsOptimized x y) (matGet g.cells x y) = false
  rw [hcnt, hcell]
  decide

theorem parallel_dest (g : Grid) (nw : Nat) (pool : Option Grid) :
    (g.NextGenerationParallel nw pool).2.width = g.width ∧
    (g.NextGenerationParallel nw pool).2.height = g.height ∧
    (g.NextGenerationParallel nw pool).2.cells =
      stepCells g (mkCells g.width g.height)
        ((bandRows g.height nw).flatMap (fun y =>
          (intRange 0 (g.width - 1)).map (fun x => ((x, y) : Int × Int)))) := by
  cases pool with
  | none => exact ⟨rfl, rfl, rfl⟩
  | some buf =>
    refine ⟨rfl, rfl, ?_⟩
    show stepCells g (GridPool.Get buf g.width g.height).cells _ = _
    rw [show (GridPool.Get buf g.width g.height).cells = mkCells g.width g.height from
      Reset_cells buf _ _]

theorem bounded_dest_valid (g : Grid) (pool : Option Grid)
    (hv : g.activeBounds.valid = true) :
    (g.NextGenerationBounded pool).2.width = g.width ∧
    (g.NextGenerationBounded pool).2.height = g.height ∧
    (g.NextGenerationBounded pool).2.cells =
      stepCells g (mkCells g.width g.height)
        ((intRange (max 0 (g.activeBounds.minY - 1))
            (min (g.height - 1) (g.activeBounds.maxY + 1))).flatMap (fun y =>
          (intRange (max 0 (g.activeBounds.minX - 1))
            (min (g.width - 1) (g.activeBounds.maxX + 1))).map (fun x =>
            ((x, y) : Int × Int)))) := by
  cases pool with
  | none =>
    unfold Grid.NextGenerationBounded
    simp only [hv, Bool.not_true, Bool.false_eq_true, if_false]
    exact ⟨rfl, rfl, rfl⟩
  | some buf =>
    unfold Grid.NextGenerationBounded
    simp only [hv, Bool.not_true, Bool.false_eq_true, if_false]
    refine ⟨rfl, rfl, ?_⟩
    show stepCells g (GridPool.Get buf g.width g.height).cells _ = _
    rw [show (GridPool.Get buf g.width g.height).cells = mkCells g.width g.height from
      Reset_cells buf _ _]

theorem bounded_dest_invalid (g : Grid) (pool : Option Grid)
    (hv : g.activeBounds.valid = false)
    (hv2 : (g.calculateActiveBounds).activeBounds.valid = false) :
    (g.NextGenerationBounded pool).2.width = g.width ∧
    (g.NextGenerationBounded pool).2.height = g.height ∧
    (g.NextGenerationBounded pool).2.cells = mkCells g.width g.height := by
  cases pool with
  | none =>
    unfold Grid.NextGenerationBounded
    simp only [hv, Bool.not_false, if_true]
    simp only [hv2, Bool.not_false, if_true]
    exact ⟨rfl, rfl, rfl⟩
  | some buf =>
    unfold Grid.NextGenerationBounded
    simp only [hv, Bool.not_false, if_true]
    simp only [hv2, Bool.not_false, if_true]
    exact ⟨rfl, rfl, Reset_cells buf _ _⟩

/-- C1: on a well-formed source grid whose bounding-box metadata is accurate
(valid with the tight box of the living cells, or invalid with no living
cells), `NextGenerationParallel` (for any positive worker count) and
`NextGenerationBounded` return destination grids with the same dimensions
and bit-identical cell matrices, for any pool buffers. -/
theorem nextGenerationParallel_eq_bounded (g : Grid) (hwf : WF g)
    (hacc : boundsAccurate g = true) (nw : Nat) (hnw : 1 ≤ nw)
    (pool1 pool2 : Option Grid) :
    (g.NextGenerationParallel nw pool1).2.width =
      (g.NextGenerationBounded pool2).2.width ∧
    (g.NextGenerationParallel nw pool1).2.height =
      (g.NextGenerationBounded pool2).2.height ∧
    (g.NextGenerationParallel nw pool1).2.cells =
      (g.NextGenerationBounded pool2).2.cells := by
  have hw0 : 0 ≤ g.width := hwf.1
  have hh0 : 0 ≤ g.height := hwf.2.1
  have hmkshape : matShape (mkCells g.width g.height) g.width g.height :=
    matShape_mkCells _ _
  have hps1 : ∀ p ∈ (bandRows g.height nw).flatMap (fun y =>
      (intRange 0 (g.width - 1)).map (fun x => ((x, y) : Int × Int))),
      0 ≤ p.1 ∧ p.1 < g.width ∧ 0 ≤ p.2 ∧ p.2 < g.height := by
    intro p hp
    rw [mem_pairList] at hp
    rw [mem_intRange] at hp
    rw [mem_bandRows hnw hh0] at hp
    omega
  obtain ⟨hpw, hph, hpc⟩ := parallel_dest g nw pool1
  by_cases hv : g.activeBounds.valid = true
  · -- accurate and valid: compare the full scan with the expanded-box scan
    have hcont := boundsAccurate_contains hacc hv
    have hps2 : ∀ p ∈ (intRange (max 0 (g.activeBounds.minY - 1))
        (min (g.height - 1) (g.activeBounds.maxY + 1))).flatMap (fun y =>
          (intRange (max 0 (g.activeBounds.minX - 1))
            (min (g.width - 1) (g.activeBounds.maxX + 1))).map (fun x =>
            ((x, y) : Int × Int))),
        0 ≤ p.1 ∧ p.1 < g.width ∧ 0 ≤ p.2 ∧ p.2 < g.height := by
      intro p hp
      rw [mem_pairList] at hp
      rw [mem_intRange] at hp
      rw [mem_intRange] at hp
      omega
    obtain ⟨hbw, hbh, hbc⟩ := bounded_dest_valid g pool2 hv
    refine ⟨by rw [hpw, hbw], by rw [hph, hbh], ?_⟩
    rw [hpc, hbc]
    apply matGet_ext (matShape_stepCells _ _ hmkshape) (matShape_stepCells _ _ hmkshape)
    intro x y hx0 hxw hy0 hyh
    rw [matGet_stepCells g _ hmkshape hps1 x y, matGet_stepCells g _ hmkshape hps2 x y]
    rw [matGet_mkCells]
    simp only [Bool.false_or]
    have hmem1 : ((x, y) : Int × Int) ∈ (bandRows g.height nw).flatMap (fun y =>
        (intRange 0 (g.width - 1)).map (fun x => ((x, y) : Int × Int))) := by
      rw [mem_pairList, mem_intRange, mem_bandRows hnw hh0]
      omega
    rw [decide_eq_true hmem1]
    simp only [Bool.true_and]
    by_cases hreg : max 0 (g.activeBounds.minX - 1) ≤ x ∧
        x ≤ min (g.width - 1) (g.activeBounds.maxX + 1) ∧
        max 0 (g.activeBounds.minY - 1) ≤ y ∧
        y ≤ min (g.height - 1) (g.activeBounds.maxY + 1)
    · have hmem2 : ((x, y) : Int × Int) ∈ (intRange (max 0 (g.activeBounds.minY - 1))
          (min (g.height - 1) (g.activeBounds.maxY + 1))).flatMap (fun y =>
            (intRange (max 0 (g.activeBounds.minX - 1))
              (min (g.width - 1) (g.activeBounds.maxX + 1))).map (fun x =>
              ((x, y) : Int × Int))) := by
        rw [mem_pairList, mem_intRange, mem_intRange]
        omega
      rw [decide_eq_true hmem2]
      simp
    · have hnot2 : ((x, y) : Int × Int) ∉ (intRange (max 0 (g.activeBounds.minY - 1))
          (min (g.height - 1) (g.activeBounds.maxY + 1))).flatMap (fun y =>
            (intRange (max 0 (g.activeBounds.minX - 1))
              (min (g.width - 1) (g.activeBounds.maxX + 1))).map (fun x =>
              ((x, y) : Int × Int))) := by
        rw [mem_pairList, mem_intRange, mem_intRange]
        omega
      rw [decide_eq_false hnot2]
      simp only [Bool.false_and]
      rw [liveNext_false_far_from_box g hwf hcont x y hx0 hxw hy0 hyh hreg]
  · -- accurate and invalid: the grid is all dead and both results stay dead
    have hv' : g.activeBounds.valid = false := by
      revert hv
      cases g.activeBounds.valid <;> simp
    have hdead := boundsAccurate_invalid_dead hacc hv'
    have hv2 : (g.calculateActiveBounds).activeBounds.valid = false := by
      apply calc_valid_false_of_dead
      intro x y
      by_cases hin : 0 ≤ x ∧ x < g.width ∧ 0 ≤ y ∧ y < g.height
      · rw [Get_eq_matGet hin.1 hin.2.1 hin.2.2.1 hin.2.2.2]
        exact hdead (x, y) (mem_gridPairs.mpr hin)
      · unfold Grid.Get
        rw [if_pos (by omega)]
    obtain ⟨hbw, hbh, hbc⟩ := bounded_dest_invalid g pool2 hv' hv2
    refine ⟨by rw [hpw, hbw], by rw [hph, hbh], ?_⟩
    rw [hpc, hbc]
    apply matGet_ext (matShape_stepCells _ _ hmkshape) hmkshape
    intro x y hx0 hxw hy0 hyh
    rw [matGet_stepCells g _ hmkshape hps1 x y]
    rw [matGet_mkCells]
    simp only [Bool.false_or]
    rw [liveNext_false_of_dead g hwf hdead (x, y)]
    simp

/-- Witness for C1: a 5×5 blinker grid with freshly computed (hence
accurate) bounds, two workers, one dirty pool buffer and one nil pool. -/
theorem nextGenerationParallel_eq_bounded_witness :
    WF (((NewGrid 5 5).AddOscillator 1 2).calculateActiveBounds) ∧
    boundsAccurate (((NewGrid 5 5).AddOscillator 1 2).calculateActiveBounds) = true ∧
    1 ≤ 2 ∧
    (((((NewGrid 5 5).AddOscillator 1 2).calculateActiveBounds).NextGenerationParallel
        2 (some ((NewGrid 3 1).Set 0 0 true))).2.width =
      ((((NewGrid 5 5).AddOscillator 1 2).calculateActiveBounds).NextGenerationBounded
        none).2.width ∧
     ((((NewGrid 5 5).AddOscillator 1 2).calculateActiveBounds).NextGenerationParallel
        2 (some ((NewGrid 3 1).Set 0 0 true))).2.height =
      ((((NewGrid 5 5).AddOscillator 1 2).calculateActiveBounds).NextGenerationBounded
        none).2.height ∧
     ((((NewGrid 5 5).AddOscillator 1 2).calculateActiveBounds).NextGenerationParallel
        2 (some ((NewGrid 3 1).Set 0 0 true))).2.cells =
      ((((NewGrid 5 5).AddOscillator 1 2).calculateActiveBounds).NextGenerationBounded
        none).2.cells) :=
  ⟨by decide, by decide, by decide,
    nextGenerationParallel_eq_bounded
      (((NewGrid 5 5).AddOscillator 1 2).calculateActiveBounds) (by decide) (by decide)
      2 (by decide) (some ((NewGrid 3 1).Set 0 0 true)) none⟩
